import Mathlib

/-!
Shallow embedding of `bot.py`: an RSS polling pipeline that fingerprints
feed entries, skips known fingerprints, scrapes and extracts an abstract,
translates title and abstract, persists the result in a SQLite table and
publishes it to a Telegram channel; a weekly job exports the table to CSV.

External effects (HTTP fetch, OpenAI chat call, SQLite outcome, Telegram
delivery) are passed in as explicit oracles; machine-level HTML parsing is
represented by the results of the three container probes the code makes.
All definitions translate the source functions; theorems settle the
specified properties against them.
-/

/-- Whitespace trim of a character list, modelling Python `str.strip()`:
drop trailing then leading whitespace. -/
def trimWs (s : List Char) : List Char :=
  ((s.reverse.dropWhile Char.isWhitespace).reverse).dropWhile Char.isWhitespace

/-- Collapse every maximal whitespace run to a single space, modelling
the regex substitution of one or more whitespace characters by one space
in `clean_annotation`. -/
def collapseWs : List Char → List Char
  | [] => []
  | [c] => if c.isWhitespace then [' '] else [c]
  | c :: d :: rest =>
    if c.isWhitespace && d.isWhitespace then collapseWs (d :: rest)
    else (if c.isWhitespace then ' ' else c) :: collapseWs (d :: rest)

/-- True iff the non-empty pattern `m` occurs as a contiguous substring of
the list, modelling Python's `m in text`. -/
def hasOccurrence (m : List Char) : List Char → Bool
  | [] => false
  | c :: rest => (m.isPrefixOf (c :: rest) || hasOccurrence m rest)

/-- The prefix of the list that stops at the first occurrence of `m`,
modelling `text.split(m)[0]` when `m` occurs in `text`. -/
def takeUntilMarker (m : List Char) : List Char → List Char
  | [] => []
  | c :: rest => if m.isPrefixOf (c :: rest) then [] else c :: takeUntilMarker m rest

/-- The boundary marker that separates the prose abstract from the
graphical-abstract caption on the scraped page. -/
def gaMarker : List Char := "Graphical abstract".data

/-- Results of the three container probes made by `clean_annotation`
(`div.Abstracts`, `div.svAbstract`, `div.abstract author`): each field is
the extracted text of that container when the page has one. The HTML
parser itself is outside the embedding; a page is represented by what the
probes would return on it. -/
structure Soup where
  abstracts : Option String
  svAbstract : Option String
  abstractAuthor : Option String
  deriving DecidableEq

/-- Text normalisation applied by `clean_annotation` to a found container:
when the "Graphical abstract" marker occurs, keep only the part before its
first occurrence and strip it; then collapse whitespace runs. -/
def normalizeAbstract (t : String) : String :=
  let s0 := t.data
  let s1 := if hasOccurrence gaMarker s0 then trimWs (takeUntilMarker gaMarker s0) else s0
  String.mk (collapseWs s1)

/-- The function `clean_annotation` of `bot.py`: try the `Abstracts`,
`svAbstract` and `abstract author` containers in that order, normalise the
first hit, and fall back to the fixed sentinel when none matches. -/
def clean_annotation (soup : Soup) : String :=
  let found :=
    match soup.abstracts with
    | some t => some t
    | none =>
      match soup.svAbstract with
      | some t => some t
      | none => soup.abstractAuthor
  match found with
  | some t => normalizeAbstract t
  | none => "Annotation not found."

/-- The function `translate_title_openai` of `bot.py`, with the OpenAI
chat call abstracted into the `remote` oracle (`none` models a raised
exception, which the source catches and degrades to the original text).
Returns the produced text together with the number of remote calls. -/
def translate_title_openai (remote : String → Option String) (eng_title : String) :
    String × Nat :=
  if eng_title = "" ∨ eng_title = "No Title" then ("Нет заголовка", 0)
  else
    match remote eng_title with
    | some out => (out.trim, 1)
    | none => (eng_title, 1)

/-- The function `translate_annotation_openai` of `bot.py`, abstracted the
same way as the title translator. -/
def translate_annotation_openai (remote : String → Option String) (eng : String) :
    String × Nat :=
  if eng = "" ∨ eng = "Annotation not found." then ("Аннотация не найдена.", 0)
  else
    match remote eng with
    | some out => (out.trim, 1)
    | none => (eng, 1)

/-- One row of the `articles` table; `hash` is the primary key and
`annot_ru` stands for the `annotation_ru` column. -/
structure Record where
  hash : String
  title_ru : String
  annot_ru : String
  authors : String
  published_date : String
  url : String
  deriving DecidableEq

/-- The `articles` table in rowid (insertion) order. -/
abbrev DB := List Record

/-- The row stored under primary key `h`, if any. -/
def lookupDB (db : DB) (h : String) : Option Record :=
  db.find? (fun r => r.hash == h)

/-- The function `save_to_db` of `bot.py`: an insert-or-ignore — append
the row unless a row with its key is already present, in which case do
nothing (never an update). -/
def save_to_db (db : DB) (r : Record) : DB :=
  if (lookupDB db r.hash).isSome then db else db ++ [r]

/-- The function `is_article_new` of `bot.py`: true iff no row with this
hash exists. -/
def is_article_new (db : DB) (h : String) : Bool :=
  (lookupDB db h).isNone

/-- An article assembled by `parse_rss`, restricted to the fields the
pipeline later reads. -/
structure Article where
  title : String
  link : String
  published_date : String
  authors : String
  deriving DecidableEq

/-- The fingerprint of an entry: the source computes the MD5 hex digest of
the concatenation of title and link; the digest is used only as an opaque
deterministic key, so it is modelled as a tagged concatenation. -/
def fingerprint (title link : String) : String :=
  "md5:" ++ title ++ "|" ++ link

/-- External effects of one pipeline run. The two `remote` oracles are the
translation calls (`none` = raised exception, caught in the translators);
`fetchPage` is the landing-page fetch (`none` = transport failure, caught
inside the fetcher and degraded to an empty page); `persistOk` says
whether the SQLite insert for a fingerprint succeeds (a failure there
raises out of `save_to_db`, and `main` does not catch it); `deliverOk`
says whether the Telegram delivery succeeds (`publish_to_telegram`
catches a delivery failure). -/
structure Env where
  remoteTitle : String → Option String
  remoteAnnot : String → Option String
  fetchPage : String → Option Soup
  persistOk : String → Bool
  deliverOk : String → Bool

/-- The function `fetch_annotation` of `bot.py`: return the page on
success and an empty page (no matching containers) on any transport
error. -/
def fetch_annotation (fetchPage : String → Option Soup) (url : String) : Soup :=
  (fetchPage url).getD ⟨none, none, none⟩

/-- Events recorded while one entry moves through the loop body of
`main`, in the order the source performs the steps. -/
inductive Event where
  | titleTranslated
  | pageFetched
  | abstractTranslated
  | persisted
  | publishAttempted (delivered : Bool)
  deriving DecidableEq

/-- The record `main` builds for a fresh article before persisting it:
translated title, fetched page, extracted and translated abstract, plus
the fields carried over from the feed entry. -/
def pipelineRecord (env : Env) (a : Article) : Record :=
  let title_ru := (translate_title_openai env.remoteTitle a.title).1
  let soup := fetch_annotation env.fetchPage a.link
  let raw := clean_annotation soup
  let annot_ru := (translate_annotation_openai env.remoteAnnot raw).1
  ⟨fingerprint a.title a.link, title_ru, annot_ru, a.authors, a.published_date, a.link⟩

/-- One iteration of the per-article loop of `main`: skip a known
fingerprint, otherwise translate, fetch, extract, translate again,
persist and publish. `Except.error` models the uncaught SQLite exception
escaping `save_to_db`; a delivery failure is caught inside
`publish_to_telegram` and therefore never yields an error. -/
def processEntry (env : Env) (db : DB) (a : Article) :
    Except String (DB × List Event) :=
  let h := fingerprint a.title a.link
  if is_article_new db h = false then Except.ok (db, [])
  else if env.persistOk h then
    let r := pipelineRecord env a
    Except.ok (save_to_db db r,
      [Event.titleTranslated, Event.pageFetched, Event.abstractTranslated,
       Event.persisted, Event.publishAttempted (env.deliverOk h)])
  else Except.error "sqlite error in save_to_db"

/-- Outcome of one loop iteration as seen from the whole run: either the
entry's event trace, or the exception that aborted the run. -/
inductive Outcome where
  | done (evs : List Event)
  | aborted (msg : String)
  deriving DecidableEq

/-- The loop of `main` over the parsed articles: an error raised in an
iteration propagates and ends the run, leaving later articles
untouched. -/
def runLoop (env : Env) : List Article → DB → DB × List Outcome
  | [], db => (db, [])
  | a :: rest, db =>
    match processEntry env db a with
    | Except.ok (db', evs) =>
      let out := runLoop env rest db'
      (out.1, Outcome.done evs :: out.2)
    | Except.error e => (db, [Outcome.aborted e])

/-- A feed entry as `feedparser` hands it to `parse_rss`: optional title
and link (defaults are applied when missing), and the description reduced
to the list of its paragraph texts. -/
structure FeedEntry where
  title : Option String
  link : Option String
  paragraphs : List String
  deriving DecidableEq

/-- A parsed feed: the `bozo` malformedness flag and the entry list. -/
structure Feed where
  bozo : Bool
  entries : List FeedEntry
  deriving DecidableEq

/-- Everything after the first colon, stripped, modelling
`text.split(":", 1)[1].strip()`. -/
def afterFirstColon (s : String) : String :=
  (String.mk ((s.data.dropWhile (fun c => c != ':')).drop 1)).trim

/-- The description scan of `parse_rss`: each paragraph is stripped and
lower-cased; a paragraph starting with "publication date:" sets the date,
one starting with "author(s):" sets the authors; later matches overwrite
earlier ones and the defaults stay otherwise. -/
def parseParagraphs (ps : List String) : String × String :=
  ps.foldl
    (fun acc p =>
      let text := p.trim
      let lower := text.toLower
      if lower.startsWith "publication date:" then (afterFirstColon text, acc.2)
      else if lower.startsWith "author(s):" then (acc.1, afterFirstColon text)
      else acc)
    ("Неизвестно", "Неизвестны")

/-- Build one article from a feed entry, applying the source's default
title and link. -/
def mkArticle (e : FeedEntry) : Article :=
  let pd := parseParagraphs e.paragraphs
  ⟨e.title.getD "Без названия", e.link.getD "#", pd.1, pd.2⟩

/-- The function `parse_rss` of `bot.py`: empty on a malformed feed or an
empty entry list, otherwise the articles built from the first two entries
(the slice to two elements), in feed order. -/
def parse_rss (feed : Feed) : List Article :=
  if feed.bozo then []
  else if feed.entries.isEmpty then []
  else (feed.entries.take 2).map mkArticle

/-- The function `main` of `bot.py`: parse the feed, then run the
per-article loop on the result. -/
def runMain (env : Env) (feed : Feed) (db : DB) : DB × List Outcome :=
  runLoop env (parse_rss feed) db

/-- The CSV row written for one ledger record, in the column order of the
SELECT statement in `export_db_to_csv`. -/
def recordToRow (r : Record) : List String :=
  [r.hash, r.title_ru, r.annot_ru, r.authors, r.published_date, r.url]

/-- The function `export_db_to_csv` of `bot.py`: the fixed header row,
then one row per record appended while walking the table in storage
order. -/
def export_db_to_csv (db : DB) : List (List String) :=
  db.foldl (fun acc r => acc ++ [recordToRow r])
    [["Hash", "Russian Title", "Russian Annotation", "Authors", "Publication Date", "URL"]]

/-- The function `send_csv_to_telegram` of `bot.py`: export the table,
then hand the produced file to the transport exactly once (a delivery
failure is caught and logged, never retried). Returns the file and the
number of hand-offs to the transport. -/
def send_csv_to_telegram (db : DB) : List (List String) × Nat :=
  (export_db_to_csv db, 1)

/-- Any list is a Boolean prefix of itself followed by anything. -/
lemma isPrefixOf_append_self (m B : List Char) : m.isPrefixOf (m ++ B) = true := by
  exact (List.isPrefixOf_iff_prefix).mpr (List.prefix_append m B)

/-- Planting the pattern in the middle of a list makes the occurrence
test succeed. -/
lemma hasOccurrence_append (m A B : List Char) (hm : m ≠ []) :
    hasOccurrence m (A ++ (m ++ B)) = true := by
  induction A with
  | nil =>
    cases m with
    | nil => exact absurd rfl hm
    | cons c m' =>
      simp only [List.nil_append, List.cons_append, hasOccurrence]
      have : (c :: m').isPrefixOf (c :: (m' ++ B)) = true := by
        rw [show c :: (m' ++ B) = (c :: m') ++ B from rfl]
        exact isPrefixOf_append_self _ _
      simp [this]
  | cons a A' ih =>
    simp only [List.cons_append, hasOccurrence, List.append_eq, ih, Bool.or_true]

/-- If the pattern `m` has no non-trivial border (no proper non-empty
prefix that is also a suffix) and is not a prefix of the non-empty block
`S`, then it is not a prefix of `S` followed by anything that starts with
`m` itself. This is the no-straddle argument behind the split. -/
lemma isPrefixOf_eq_false_mid (m S B : List Char) (hS : S ≠ [])
    (h1 : m.isPrefixOf S = false)
    (hb : ∀ k, k < m.length → 0 < k → m.take k ≠ m.drop (m.length - k)) :
    m.isPrefixOf (S ++ (m ++ B)) = false := by
  by_contra hcon
  have hpre : m <+: S ++ (m ++ B) := by
    have htrue : m.isPrefixOf (S ++ (m ++ B)) = true := by
      cases hval : m.isPrefixOf (S ++ (m ++ B)) with
      | true => rfl
      | false => exact absurd hval hcon
    exact (List.isPrefixOf_iff_prefix).mp htrue
  have hS1 : 1 ≤ S.length := by
    cases S with
    | nil => exact absurd rfl hS
    | cons s S' => simp
  rcases le_or_lt m.length S.length with hle | hlt
  · have hps : m <+: S :=
      List.prefix_of_prefix_length_le hpre (List.prefix_append S (m ++ B)) hle
    have : m.isPrefixOf S = true := (List.isPrefixOf_iff_prefix).mpr hps
    rw [h1] at this
    exact Bool.false_ne_true this
  · have hk0 : 0 < m.length - S.length := by omega
    have hkm : m.length - S.length < m.length := by omega
    have heq : m = S ++ m.take (m.length - S.length) := by
      have h2 : m = (S ++ (m ++ B)).take m.length := (List.prefix_iff_eq_take).mp hpre
      rw [List.take_append_eq_append_take, List.take_of_length_le (Nat.le_of_lt hlt),
        List.take_append_eq_append_take] at h2
      have hz : m.length - S.length - m.length = 0 := by omega
      rw [hz, List.take_zero, List.append_nil] at h2
      exact h2
    have hdrop : m.drop (m.length - (m.length - S.length)) = m.take (m.length - S.length) := by
      have hms : m.length - (m.length - S.length) = S.length := by omega
      rw [hms]
      conv_lhs => rw [heq]
      exact List.drop_left S _
    exact (hb (m.length - S.length) hkm hk0) hdrop.symm

/-- The split at the first occurrence of a border-free pattern recovers
exactly the pattern-free part before the planted occurrence. -/
lemma takeUntilMarker_append (m B : List Char) (hm : m ≠ [])
    (hb : ∀ k, k < m.length → 0 < k → m.take k ≠ m.drop (m.length - k)) :
    ∀ A, hasOccurrence m A = false → takeUntilMarker m (A ++ (m ++ B)) = A := by
  intro A
  induction A with
  | nil =>
    intro _
    cases m with
    | nil => exact absurd rfl hm
    | cons c m' =>
      simp only [List.nil_append, List.cons_append, takeUntilMarker]
      have : (c :: m').isPrefixOf (c :: (m' ++ B)) = true := by
        rw [show c :: (m' ++ B) = (c :: m') ++ B from rfl]
        exact isPrefixOf_append_self _ _
      simp [this]
  | cons a A' ih =>
    intro h
    rw [hasOccurrence, Bool.or_eq_false_iff] at h
    obtain ⟨h1, h2⟩ := h
    have hpre := isPrefixOf_eq_false_mid m (a :: A') B (by simp) h1 hb
    rw [List.cons_append, takeUntilMarker]
    rw [show a :: (A' ++ (m ++ B)) = (a :: A') ++ (m ++ B) from rfl, hpre]
    simp only [Bool.false_eq_true, if_false]
    rw [ih h2]

/-- Appending one trailing space does not change the trimmed value. -/
lemma trimWs_append_space (A : List Char) : trimWs (A ++ [' ']) = trimWs A := by
  have h : (A ++ [' ']).reverse.dropWhile Char.isWhitespace
      = A.reverse.dropWhile Char.isWhitespace := by
    rw [List.reverse_append]
    simp [List.dropWhile]
  rw [trimWs, trimWs, h]

/-- If a predicate finds nothing in the front list, searching the
concatenation searches the back list. -/
lemma find?_append_of_none {p : Record → Bool} (db : DB) (h : db.find? p = none)
    (l : DB) : (db ++ l).find? p = l.find? p := by
  rw [List.find?_append, h, Option.none_or]

/-- A shared base environment for concrete runs: remote translation and
page fetch raise (and are degraded internally), persistence and delivery
succeed. -/
def cEnvBase : Env :=
  ⟨fun _ => none, fun _ => none, fun _ => none, fun _ => true, fun _ => true⟩

/-- Concrete environment in which every SQLite insert raises. -/
def cEnvFailPersist : Env :=
  ⟨fun _ => none, fun _ => none, fun _ => none, fun _ => false, fun _ => true⟩

/-- Concrete environment in which persistence succeeds and every other
external effect fails (remote calls raise, fetch fails, delivery fails). -/
def cEnvAllFail : Env :=
  ⟨fun _ => none, fun _ => none, fun _ => none, fun _ => true, fun _ => false⟩

/-- Concrete environment in which only the Telegram delivery fails. -/
def cEnvPubFail : Env :=
  ⟨fun _ => none, fun _ => none, fun _ => none, fun _ => true, fun _ => false⟩

/-- A first concrete feed article. -/
def cArticleOne : Article := ⟨"T1", "L1", "2025-01-01", "Author One"⟩

/-- A second concrete feed article, with a distinct fingerprint. -/
def cArticleTwo : Article := ⟨"T2", "L2", "2025-01-02", "Author Two"⟩

/-- C1, counterexample: with two fresh articles and a SQLite failure on
the first insert, the run aborts after the first article — the second
article of the same run is never reached (it gets no outcome and is never
persisted), refuting the claim that a persist-step failure does not
prevent subsequent entries from being processed. -/
theorem spec_c1_counterexample :
    ((runLoop cEnvFailPersist [cArticleOne, cArticleTwo] []).2).length ≠ 2 ∧
    lookupDB ((runLoop cEnvFailPersist [cArticleOne, cArticleTwo] []).1)
      (fingerprint "T2" "L2") = none := by
  constructor
  · decide
  · decide

/-- C1 (amended): failures in the enrichment, translation and publish
steps are contained per entry — the loop reaches every article of the run
as long as every SQLite insert succeeds, whatever the fetch, translation
and delivery oracles do; a persist failure, by contrast, is uncaught and
aborts the remainder of the run (see the counterexample). -/
theorem spec_c1_isolation (env : Env) (entries : List Article) (db : DB)
    (hp : ∀ a ∈ entries, env.persistOk (fingerprint a.title a.link) = true) :
    ((runLoop env entries db).2).length = entries.length := by
  induction entries generalizing db with
  | nil => rfl
  | cons a rest ih =>
    have ha := hp a (List.mem_cons_self a rest)
    have hrest : ∀ b ∈ rest, env.persistOk (fingerprint b.title b.link) = true :=
      fun b hb => hp b (List.mem_cons_of_mem a hb)
    cases hnew : is_article_new db (fingerprint a.title a.link) with
    | false =>
      simp only [runLoop, processEntry, hnew, if_pos rfl]
      simp [ih _ hrest]
    | true =>
      simp only [runLoop, processEntry, hnew, ha]
      simp [ih _ hrest]

/-- C1, witness for the amended statement: with persistence succeeding
and every other external effect failing, both articles of the run receive
an outcome. -/
theorem spec_c1_witness :
    ((runLoop cEnvAllFail [cArticleOne, cArticleTwo] []).2).length = 2 :=
  spec_c1_isolation cEnvAllFail [cArticleOne, cArticleTwo] [] (by decide)

/-- C2: first-write-wins. Starting from a ledger without the fingerprint
`f`, inserting `r1` and then `r2` (both keyed by `f`) leaves the ledger
with the second insert a no-op, exactly one row stored under `f`, and
that row equal to `r1`. -/
theorem spec_c2_first_write_wins (db : DB) (f : String) (r1 r2 : Record)
    (h1 : r1.hash = f) (h2 : r2.hash = f) (habs : lookupDB db f = none) :
    save_to_db (save_to_db db r1) r2 = save_to_db db r1 ∧
    (save_to_db (save_to_db db r1) r2).filter (fun r => r.hash == f) = [r1] ∧
    lookupDB (save_to_db (save_to_db db r1) r2) f = some r1 := by
  have e1 : save_to_db db r1 = db ++ [r1] := by
    rw [save_to_db, h1, habs]
    rfl
  have l1 : lookupDB (db ++ [r1]) f = some r1 := by
    rw [lookupDB, find?_append_of_none db habs]
    simp [List.find?, h1]
  have e2 : save_to_db (db ++ [r1]) r2 = db ++ [r1] := by
    rw [save_to_db, h2, l1]
    rfl
  have hfilter : (db ++ [r1]).filter (fun r => r.hash == f) = [r1] := by
    rw [List.filter_append]
    have hdbnil : db.filter (fun r => r.hash == f) = [] := by
      rw [List.filter_eq_nil_iff]
      intro x hx
      have := List.find?_eq_none.mp habs x hx
      simpa using this
    rw [hdbnil]
    simp [List.filter, h1]
  refine ⟨?_, ?_, ?_⟩
  · rw [e1, e2]
  · rw [e1, e2, hfilter]
  · rw [e1, e2, l1]

/-- A first concrete ledger row keyed by "f0". -/
def cRecOne : Record := ⟨"f0", "t1", "a1", "au1", "d1", "u1"⟩

/-- A second concrete ledger row with the same key "f0" and different
content. -/
def cRecTwo : Record := ⟨"f0", "t2", "a2", "au2", "d2", "u2"⟩

/-- C2, witness: on the empty ledger, inserting the two concrete records
keyed by "f0" stores exactly the first one. -/
theorem spec_c2_witness :
    save_to_db (save_to_db [] cRecOne) cRecTwo = save_to_db [] cRecOne ∧
    (save_to_db (save_to_db [] cRecOne) cRecTwo).filter (fun r => r.hash == "f0") = [cRecOne] ∧
    lookupDB (save_to_db (save_to_db [] cRecOne) cRecTwo) "f0" = some cRecOne :=
  spec_c2_first_write_wins [] "f0" cRecOne cRecTwo rfl rfl rfl

/-- C3: an entry whose fingerprint is already in the ledger is skipped
before any further work — the loop body returns the unchanged ledger and
an empty event trace: no page fetch, no translation call, no insert, no
publish attempt. Re-running the pipeline over an already-processed entry
is therefore a per-entry no-op. -/
theorem spec_c3_duplicate_skip (env : Env) (db : DB) (a : Article)
    (hdup : is_article_new db (fingerprint a.title a.link) = false) :
    processEntry env db a = Except.ok (db, []) := by
  simp [processEntry, hdup]

/-- A concrete ledger that already contains the fingerprint of the first
concrete article. -/
def cDupDb : DB := [⟨fingerprint "T1" "L1", "x", "y", "z", "d", "u"⟩]

/-- C3, witness: the first concrete article is skipped with no events on
the ledger that already holds its fingerprint. -/
theorem spec_c3_witness :
    processEntry cEnvBase cDupDb cArticleOne = Except.ok (cDupDb, []) :=
  spec_c3_duplicate_skip cEnvBase cDupDb cArticleOne (by decide)

/-- C4: on markup whose `Abstracts` container text has the form
"X Graphical abstract Y" (with the marker not occurring in X itself, so
that the decomposition is the one at the first marker occurrence), the
extraction returns exactly X trimmed and whitespace-collapsed, and hence
never any text after the marker. -/
theorem spec_c4_graphical_truncation (X Y : String)
    (hX : hasOccurrence gaMarker (X.data ++ [' ']) = false) :
    clean_annotation ⟨some (X ++ " Graphical abstract " ++ Y), none, none⟩ =
      String.mk (collapseWs (trimWs X.data)) := by
  have hga : (" Graphical abstract " : String).data = [' '] ++ (gaMarker ++ [' ']) := by
    decide
  have hdata : (X ++ " Graphical abstract " ++ Y).data
      = (X.data ++ [' ']) ++ (gaMarker ++ ([' '] ++ Y.data)) := by
    rw [String.data_append, String.data_append, hga]
    simp [List.append_assoc]
  have hm : gaMarker ≠ [] := by decide
  have hb : ∀ k, k < gaMarker.length → 0 < k →
      gaMarker.take k ≠ gaMarker.drop (gaMarker.length - k) := by decide
  have hocc : hasOccurrence gaMarker ((X.data ++ [' ']) ++ (gaMarker ++ ([' '] ++ Y.data)))
      = true := hasOccurrence_append gaMarker _ _ hm
  have htake : takeUntilMarker gaMarker
      ((X.data ++ [' ']) ++ (gaMarker ++ ([' '] ++ Y.data))) = X.data ++ [' '] :=
    takeUntilMarker_append gaMarker _ hm hb _ hX
  show normalizeAbstract (X ++ " Graphical abstract " ++ Y) = _
  rw [normalizeAbstract]
  simp only [hdata, hocc, htake, trimWs_append_space, if_true]

/-- C4, witness: a concrete container text with internal double spacing
and a graphical-abstract tail is truncated and normalised as claimed. -/
theorem spec_c4_witness :
    clean_annotation ⟨some ("Alpha  beta" ++ " Graphical abstract " ++ "Gamma"), none, none⟩ =
      String.mk (collapseWs (trimWs "Alpha  beta".data)) :=
  spec_c4_graphical_truncation "Alpha  beta" "Gamma" (by decide)

/-- C5: the extraction tries its matchers in the fixed order `Abstracts`,
`svAbstract`, `abstract author`; the first match determines the result,
and when no container shape matches the fixed sentinel is returned. -/
theorem spec_c5_matcher_priority (s : Soup) :
    (∀ t, s.abstracts = some t → clean_annotation s = normalizeAbstract t) ∧
    (s.abstracts = none → ∀ t, s.svAbstract = some t →
      clean_annotation s = normalizeAbstract t) ∧
    (s.abstracts = none → s.svAbstract = none → ∀ t, s.abstractAuthor = some t →
      clean_annotation s = normalizeAbstract t) ∧
    (s.abstracts = none → s.svAbstract = none → s.abstractAuthor = none →
      clean_annotation s = "Annotation not found.") := by
  obtain ⟨a, b, c⟩ := s
  refine ⟨fun t ht => ?_, fun ha t ht => ?_, fun ha hb t ht => ?_, fun ha hb hc => ?_⟩ <;>
    simp_all [ clean_annotation]

/-- C5, witness: the second matcher wins when the first misses, and the
sentinel comes back when all three miss. -/
theorem spec_c5_witness :
    clean_annotation ⟨none, some "Svc", none⟩ = normalizeAbstract "Svc" ∧
    clean_annotation ⟨none, none, none⟩ = "Annotation not found." :=
  ⟨(spec_c5_matcher_priority ⟨none, some "Svc", none⟩).2.1 rfl "Svc" rfl,
   (spec_c5_matcher_priority ⟨none, none, none⟩).2.2.2 rfl rfl rfl⟩

/-- C6: on an empty input or the known no-content sentinel, both
translators short-circuit to their fixed localized placeholder and make
zero remote calls, whatever the remote oracle would answer. -/
theorem spec_c6_short_circuit (remoteT remoteA : String → Option String) (t a : String)
    (ht : t = "" ∨ t = "No Title") (ha : a = "" ∨ a = "Annotation not found.") :
    translate_title_openai remoteT t = ("Нет заголовка", 0) ∧
    translate_annotation_openai remoteA a = ("Аннотация не найдена.", 0) := by
  constructor
  · rcases ht with h | h <;> simp [translate_title_openai, h]
  · rcases ha with h | h <;> simp [translate_annotation_openai, h]

/-- C6, witness: the empty title and the sentinel abstract both produce
the placeholders with zero remote calls. -/
theorem spec_c6_witness :
    translate_title_openai (fun _ => none) "" = ("Нет заголовка", 0) ∧
    translate_annotation_openai (fun _ => none) "Annotation not found."
      = ("Аннотация не найдена.", 0) :=
  spec_c6_short_circuit (fun _ => none) (fun _ => none) "" "Annotation not found."
    (Or.inl rfl) (Or.inr rfl)

/-- C7: on a non-empty, non-sentinel input, a remote-service failure
(the oracle answering `none`, i.e. the call raising) makes each
translator return the original input unchanged after exactly one remote
call; totality of the function is the absence of propagation. -/
theorem spec_c7_failure_fallback (remoteT remoteA : String → Option String) (t a : String)
    (ht : ¬(t = "" ∨ t = "No Title")) (hrt : remoteT t = none)
    (ha : ¬(a = "" ∨ a = "Annotation not found.")) (hra : remoteA a = none) :
    translate_title_openai remoteT t = (t, 1) ∧
    translate_annotation_openai remoteA a = (a, 1) := by
  constructor
  · simp [translate_title_openai, ht, hrt]
  · simp [translate_annotation_openai, ha, hra]

/-- C7, witness: with an always-raising remote service, the concrete
inputs come back unchanged. -/
theorem spec_c7_witness :
    translate_title_openai (fun _ => none) "Hello" = ("Hello", 1) ∧
    translate_annotation_openai (fun _ => none) "World" = ("World", 1) :=
  spec_c7_failure_fallback (fun _ => none) (fun _ => none) "Hello" "World"
    (by decide) rfl (by decide) rfl

/-- C8: for a fresh entry whose insert succeeds and whose delivery
fails, the loop body still returns successfully (the delivery failure is
caught), the record persisted just before remains stored unchanged under
the entry's fingerprint, and re-processing the same entry against the
resulting ledger is a skip with no events — so a publish failure costs at
most the one missed notification and can never cause a duplicate
publication. -/
theorem spec_c8_publish_failure_contained (env : Env) (db : DB) (a : Article)
    (hnew : is_article_new db (fingerprint a.title a.link) = true)
    (hp : env.persistOk (fingerprint a.title a.link) = true)
    (hd : env.deliverOk (fingerprint a.title a.link) = false) :
    processEntry env db a =
      Except.ok (save_to_db db (pipelineRecord env a),
        [Event.titleTranslated, Event.pageFetched, Event.abstractTranslated,
         Event.persisted, Event.publishAttempted false]) ∧
    lookupDB (save_to_db db (pipelineRecord env a)) (fingerprint a.title a.link) =
      some (pipelineRecord env a) ∧
    processEntry env (save_to_db db (pipelineRecord env a)) a =
      Except.ok (save_to_db db (pipelineRecord env a), []) := by
  have hhash : (pipelineRecord env a).hash = fingerprint a.title a.link := rfl
  have hlooknone : lookupDB db (fingerprint a.title a.link) = none := by
    rw [is_article_new, Option.isNone_iff_eq_none] at hnew
    exact hnew
  have hsave : save_to_db db (pipelineRecord env a) = db ++ [pipelineRecord env a] := by
    rw [save_to_db, hhash, hlooknone]
    rfl
  have hlook : lookupDB (save_to_db db (pipelineRecord env a))
      (fingerprint a.title a.link) = some (pipelineRecord env a) := by
    rw [hsave, lookupDB, find?_append_of_none db hlooknone]
    simp [List.find?, hhash]
  refine ⟨?_, hlook, ?_⟩
  · simp [processEntry, hnew, hp, hd]
  · have hold : is_article_new (save_to_db db (pipelineRecord env a))
        (fingerprint a.title a.link) = false := by
      rw [is_article_new, hlook]
      rfl
    simp [processEntry, hold]

/-- C8, witness: the concrete fresh article, with delivery failing, is
persisted, still returned successfully, and skipped on a second pass. -/
theorem spec_c8_witness :
    processEntry cEnvPubFail [] cArticleOne =
      Except.ok (save_to_db [] (pipelineRecord cEnvPubFail cArticleOne),
        [Event.titleTranslated, Event.pageFetched, Event.abstractTranslated,
         Event.persisted, Event.publishAttempted false]) ∧
    lookupDB (save_to_db [] (pipelineRecord cEnvPubFail cArticleOne))
        (fingerprint cArticleOne.title cArticleOne.link)
      = some (pipelineRecord cEnvPubFail cArticleOne) ∧
    processEntry cEnvPubFail (save_to_db [] (pipelineRecord cEnvPubFail cArticleOne))
        cArticleOne
      = Except.ok (save_to_db [] (pipelineRecord cEnvPubFail cArticleOne), []) :=
  spec_c8_publish_failure_contained cEnvPubFail [] cArticleOne rfl rfl rfl

/-- Walking the table while appending one row per record produces the
accumulator followed by the mapped rows. -/
lemma foldl_export (db : DB) (acc : List (List String)) :
    db.foldl (fun acc r => acc ++ [recordToRow r]) acc = acc ++ db.map recordToRow := by
  induction db generalizing acc with
  | nil => simp
  | cons r rest ih => simp [List.foldl, ih]

/-- C9: the export consists of exactly the six-column header row followed
by one row per stored record in ledger storage order with no filtering,
and the produced file is handed to the transport exactly once. -/
theorem spec_c9_export_shape (db : DB) :
    export_db_to_csv db =
      ["Hash", "Russian Title", "Russian Annotation", "Authors", "Publication Date", "URL"]
        :: db.map recordToRow ∧
    (export_db_to_csv db).length = db.length + 1 ∧
    (send_csv_to_telegram db).1 = export_db_to_csv db ∧
    (send_csv_to_telegram db).2 = 1 := by
  have h : export_db_to_csv db =
      ["Hash", "Russian Title", "Russian Annotation", "Authors", "Publication Date", "URL"]
        :: db.map recordToRow := by
    rw [export_db_to_csv, foldl_export]
    rfl
  refine ⟨h, ?_, rfl, rfl⟩
  rw [h]
  simp

/-- C10: a successfully parsed feed contributes at most its first two
entries to a poll run, in feed order; the parsed article list is exactly
the image of the two-element slice, and the whole run processes exactly
that list, so entries beyond the first two are never fingerprinted,
persisted, or published in that run. -/
theorem spec_c10_first_two (feed : Feed) (hb : feed.bozo = false) :
    (parse_rss feed).length ≤ 2 ∧
    parse_rss feed = (feed.entries.take 2).map mkArticle ∧
    ∀ env db, runMain env feed db = runLoop env ((feed.entries.take 2).map mkArticle) db := by
  have hpr : parse_rss feed = (feed.entries.take 2).map mkArticle := by
    by_cases he : feed.entries.isEmpty
    · have hnil : feed.entries = [] := List.isEmpty_iff.mp he
      simp [parse_rss, hb, hnil]
    · simp [parse_rss, hb, he]
  refine ⟨?_, hpr, fun env db => by rw [runMain, hpr]⟩
  rw [hpr]
  simp only [List.length_map]
  exact List.length_take_le 2 feed.entries

/-- A concrete well-formed feed with three entries. -/
def cFeedThree : Feed :=
  ⟨false,
    [⟨some "T1", some "L1", ["Publication date: 2025-01-01", "Author(s): A, B"]⟩,
     ⟨some "T2", some "L2", []⟩,
     ⟨some "T3", some "L3", []⟩]⟩

/-- C10, witness: the three-entry feed is well formed, parses to at most
two articles, and its run coincides with the run over the first two
entries. -/
theorem spec_c10_witness :
    cFeedThree.bozo = false ∧
    (parse_rss cFeedThree).length ≤ 2 ∧
    runMain cEnvBase cFeedThree [] =
      runLoop cEnvBase ((cFeedThree.entries.take 2).map mkArticle) [] :=
  ⟨rfl, (spec_c10_first_two cFeedThree rfl).1,
    (spec_c10_first_two cFeedThree rfl).2.2 cEnvBase []⟩
